import Mathlib

/-!
Verification of the phone-number normalization and record-classification
engine of the Site_Excel_Escola repository (src/whatsapp_excel_integrator.py).

Python strings are modelled as lists of characters (`Str`), fallible
operations return products of options exactly as the source functions do,
and each distinct failure message of the source is one constructor of an
inductive reason type.
-/

namespace ExcelEscola

/-- Python strings, modelled as lists of characters. -/
abbrev Str := List Char

/-- Removes every character that is not a digit, as the substitution of
non-digits by the empty string does in the source (re.sub applied in
clean_and_standardize_phone and to the hyphen block). -/
def stripNonDigits (s : Str) : Str := s.filter Char.isDigit

/-- Python str.startswith: the first characters of s coincide with p. -/
def startsWith (p s : Str) : Bool := s.take p.length == p

/-- Python str.split on a single separator character: "a-b".split of the
hyphen gives the pieces between occurrences, keeping empty pieces. -/
def splitOn (sep : Char) : Str → List Str
  | [] => [[]]
  | c :: rest =>
      let r := splitOn sep rest
      if c = sep then [] :: r else (c :: r.headD []) :: r.tail

/-- Python str.strip: whitespace removed from both ends. -/
def pyStrip (s : Str) : Str :=
  ((s.dropWhile Char.isWhitespace).reverse.dropWhile Char.isWhitespace).reverse

/-- The distinct failure messages returned by clean_and_standardize_phone,
one constructor per literal message of the source; the number argument is
the digit count interpolated into the message.
vazio is the message for empty input; hifenFormato the message for a
hyphen count other than one; hifenParte2 the message for a block after the
hyphen that does not hold exactly 4 digits; muitoCurto the message for
fewer than 8 digits; muitoLongoSemCC the message for more than 13 digits
without the country code; tamanhoInvalido the final catch-all message. -/
inductive Motivo where
  | vazio
  | hifenFormato
  | hifenParte2 (n : Nat)
  | muitoCurto (n : Nat)
  | muitoLongoSemCC (n : Nat)
  | tamanhoInvalido (n : Nat)
  deriving DecidableEq, Repr

/-- The country code drawn from the configured digit string: its first two
characters when it has at least two, the fallback otherwise, as computed
at the top of clean_and_standardize_phone. -/
def CCof (default_country_code : Str) : Str :=
  if 2 ≤ default_country_code.length then default_country_code.take 2 else ['5', '5']

/-- The area code drawn from the configured digit string: its third and
fourth characters when it has at least four, the fallback otherwise. -/
def DDof (default_country_code : Str) : Str :=
  if 4 ≤ default_country_code.length then (default_country_code.drop 2).take 2 else ['3', '1']

/-- The length-based standardization rules of clean_and_standardize_phone,
applied to the digit-only form of the input, in the order of the source:
12 digits with the country code, 10, 8 or 9, 11, 13 with the country code,
then the three rejection cases. -/
def length_dispatch (cleaned CC DD : Str) : Option Str × Option Motivo :=
  let phone_length := cleaned.length
  let has_cc := startsWith CC cleaned
  if phone_length = 12 ∧ has_cc = true then
    (some (cleaned.take 4 ++ '9' :: cleaned.drop 4), none)
  else if phone_length = 10 then
    (some (CC ++ cleaned.take 2 ++ '9' :: cleaned.drop 2), none)
  else if phone_length = 8 ∨ phone_length = 9 then
    (some (CC ++ DD ++ cleaned), none)
  else if phone_length = 11 then
    if startsWith DD cleaned then (some (CC ++ cleaned), none) else (some (CC ++ cleaned), none)
  else if phone_length = 13 ∧ has_cc = true then
    (some cleaned, none)
  else if phone_length < 8 then
    (none, some (Motivo.muitoCurto phone_length))
  else if 13 < phone_length ∧ has_cc = false then
    (none, some (Motivo.muitoLongoSemCC phone_length))
  else
    (none, some (Motivo.tamanhoInvalido phone_length))

/-- clean_and_standardize_phone of the source: empty check, hyphen
pre-validation on the original string, then the length dispatch on the
digit-only form. Returns the standardized number or the failure reason,
exactly one of the two. -/
def clean_and_standardize_phone (number : Str) (default_country_code : Str) :
    Option Str × Option Motivo :=
  if number = [] then (none, some Motivo.vazio)
  else
    let CC := CCof default_country_code
    let DD := DDof default_country_code
    if number.contains '-' then
      let parts := splitOn '-' number
      if parts.length ≠ 2 then (none, some Motivo.hifenFormato)
      else
        let part2_clean := stripNonDigits (parts.getD 1 [])
        if part2_clean.length ≠ 4 then (none, some (Motivo.hifenParte2 part2_clean.length))
        else length_dispatch (stripNonDigits number) CC DD
    else length_dispatch (stripNonDigits number) CC DD

/-- format_phone_for_vcf of the source: a 13-character number is rendered
as the plus sign, country code, the area code in parentheses and the
subscriber number with a hyphen before its last four digits; anything
else is returned unchanged. -/
def format_phone_for_vcf (e164_number : Str) : Str :=
  if e164_number = [] ∨ e164_number.length ≠ 13 then e164_number
  else
    let cc := e164_number.take 2
    let ddd := (e164_number.drop 2).take 2
    let part1 := (e164_number.drop 4).take 5
    let part2 := (e164_number.drop 9).take 4
    '+' :: (cc ++ [' ', '('] ++ ddd ++ [')', ' '] ++ part1 ++ ['-'] ++ part2)

/-- One input row, reduced to the four semantically mapped columns that
generate_vcf_content reads through the column mapping (responsible name,
student name, class name, phone); the remaining columns of the original
row do not influence classification. -/
structure Row where
  responsible : Str
  student : Str
  turma : Str
  phone : Str
  deriving DecidableEq

/-- The failure motive stored with a rejected row: either one of the phone
failure messages, or the literal fallback message used when the phone
reason is absent (the disjunction of failure_reason with the fallback in
the source). -/
inductive MotivoFalha where
  | deTelefone (m : Motivo)
  | nomeOuNumeroLimpoInvalido
  deriving DecidableEq, Repr

/-- The stored failure motive: the phone failure reason when present, the
fallback message otherwise. -/
def motivoOf : Option Motivo → MotivoFalha
  | some m => MotivoFalha.deTelefone m
  | none => MotivoFalha.nomeOuNumeroLimpoInvalido

/-- One entry of the successful_contacts list filled by
generate_vcf_content, with the same fields as the source dictionary. -/
structure SuccessEntry where
  indice : Nat
  responsavel : Str
  aluno : Str
  turma : Str
  numeroOriginal : Str
  numeroPadronizado : Str
  visualizacaoVCF : Str
  deriving DecidableEq

/-- One entry of the failed_contacts list filled by generate_vcf_content,
with the metadata fields of the source dictionary (the merge with the raw
row only adds the original columns back and is outside the model). -/
structure FailEntry where
  indice : Nat
  responsavel : Str
  aluno : Str
  turma : Str
  telefone : Str
  motivoDaFalha : MotivoFalha
  explicacaoAI : Str
  deriving DecidableEq

/-- The literal vCard block written by generate_vcf_content for one
accepted row. -/
def vcf_block (full_name responsible_name formatted_phone : Str) : Str :=
  "BEGIN:VCARD\nVERSION:3.0\nFN:".toList ++ full_name ++ "\nN:;".toList ++ responsible_name
    ++ ";;;\nTEL;TYPE=CELL:".toList ++ formatted_phone ++ "\nEND:VCARD".toList

/-- The row loop of generate_vcf_content: for each row, strip the four
fields, standardize the phone, and either emit a vCard block plus a
success entry (non-blank responsible name and standardized phone) or a
failure entry. The explain argument stands for the external
explain_phone_defect_with_ai collaborator, whose text is only stored.
idx is the zero-based position of the first row of the list. -/
def vcf_rows (explain : Str → Option Motivo → Str) (default_country_code : Str) :
    Nat → List Row → List Str × List SuccessEntry × List FailEntry
  | _, [] => ([], [], [])
  | idx, row :: rest =>
      let responsible_name := pyStrip row.responsible
      let student_name := pyStrip row.student
      let turma_name := pyStrip row.turma
      let original_phone := pyStrip row.phone
      let full_name :=
        if student_name ≠ [] then responsible_name ++ " - ".toList ++ student_name
        else responsible_name
      let r := vcf_rows explain default_country_code (idx + 1) rest
      match clean_and_standardize_phone original_phone default_country_code with
      | (some e164, _) =>
          if responsible_name ≠ [] then
            (vcf_block full_name responsible_name (format_phone_for_vcf e164) :: r.1,
             ⟨idx + 1, responsible_name, student_name, turma_name, original_phone, e164,
               format_phone_for_vcf e164⟩ :: r.2.1,
             r.2.2)
          else
            (r.1, r.2.1,
             ⟨idx + 1, responsible_name, student_name, turma_name, original_phone,
               motivoOf none, explain original_phone none⟩ :: r.2.2)
      | (none, reason) =>
          (r.1, r.2.1,
           ⟨idx + 1, responsible_name, student_name, turma_name, original_phone,
             motivoOf reason, explain original_phone reason⟩ :: r.2.2)

/-- generate_vcf_content of the source: the joined vCard text plus the two
report lists it fills (the source mutates caller-supplied lists and
returns the text; the model returns all three). -/
def generate_vcf_content (explain : Str → Option Motivo → Str) (rows : List Row)
    (default_country_code : Str) : Str × List SuccessEntry × List FailEntry :=
  let r := vcf_rows explain default_country_code 0 rows
  (List.intercalate ['\n'] r.1, r.2.1, r.2.2)

/-- One observable step of the PATH B send loop of main: a record skipped
for lacking a standardized phone, a sleep (in milliseconds, the source
sleeps half a second), or a gateway call with its outcome. -/
inductive SendEvent where
  | skipRecord (motivo : Option Motivo)
  | sleepDelay (ms : Nat)
  | apiCall (recipient : Str) (ok : Bool)
  deriving DecidableEq, Repr

/-- The PATH B loop of main as a trace of events: per row, the phone is
standardized (the phone cell is not stripped on this path); without a
standardized phone the row is recorded as a failure and nothing else
happens; with one, the loop sleeps half a second and then calls the
gateway, whose outcome the abstract gateway argument decides. -/
def send_loop (gateway : Str → Bool) (default_country_code : Str) (rows : List Row) :
    List SendEvent :=
  rows.flatMap fun row =>
    match clean_and_standardize_phone row.phone default_country_code with
    | (none, reason) => [SendEvent.skipRecord reason]
    | (some cleaned, _) => [SendEvent.sleepDelay 500, SendEvent.apiCall cleaned (gateway cleaned)]

/-- Total milliseconds slept along a trace of the send loop. -/
def totalDelay : List SendEvent → Nat
  | [] => 0
  | SendEvent.sleepDelay ms :: rest => ms + totalDelay rest
  | _ :: rest => totalDelay rest

/-- Selects the sleep events of a trace. -/
def isSleep : SendEvent → Bool
  | SendEvent.sleepDelay _ => true
  | _ => false

/-- Selects the gateway calls of a trace. -/
def isApiCall : SendEvent → Bool
  | SendEvent.apiCall _ _ => true
  | _ => false

lemma length_CCof (dcc : Str) : (CCof dcc).length = 2 := by
  unfold CCof
  split
  · simp only [List.length_take]
    omega
  · rfl

lemma length_DDof (dcc : Str) : (DDof dcc).length = 2 := by
  unfold DDof
  split
  · simp only [List.length_take, List.length_drop]
    omega
  · rfl

lemma mem_stripNonDigits {ch : Char} {s : Str} (h : ch ∈ stripNonDigits s) :
    ch.isDigit = true := (List.mem_filter.mp h).2

lemma stripNonDigits_eq_self {s : Str} (h : ∀ ch ∈ s, ch.isDigit = true) :
    stripNonDigits s = s := List.filter_eq_self.mpr h

lemma contains_hyphen_eq_false_of_digits {s : Str} (h : ∀ ch ∈ s, ch.isDigit = true) :
    s.contains '-' = false := by
  by_contra hc
  have hmem : '-' ∈ s := List.elem_iff.mp (Bool.of_not_eq_false hc)
  have := h '-' hmem
  simp at this

lemma CCof_digits {dcc : Str} (h : ∀ ch ∈ dcc, ch.isDigit = true) :
    ∀ ch ∈ CCof dcc, ch.isDigit = true := by
  intro ch hm
  unfold CCof at hm
  split at hm
  · exact h ch (List.mem_of_mem_take hm)
  · obtain rfl : ch = '5' := by simpa using hm
    decide

lemma DDof_digits {dcc : Str} (h : ∀ ch ∈ dcc, ch.isDigit = true) :
    ∀ ch ∈ DDof dcc, ch.isDigit = true := by
  intro ch hm
  unfold DDof at hm
  split at hm
  · exact h ch (List.mem_of_mem_drop (List.mem_of_mem_take hm))
  · rcases (by simpa using hm : ch = '3' ∨ ch = '1') with rfl | rfl <;> decide

lemma clean_accept_dispatch {number dcc c : Str}
    (h : (clean_and_standardize_phone number dcc).1 = some c) :
    (length_dispatch (stripNonDigits number) (CCof dcc) (DDof dcc)).1 = some c := by
  unfold clean_and_standardize_phone at h
  dsimp only at h
  split at h
  · simp at h
  · split at h
    · split at h
      · simp at h
      · split at h
        · simp at h
        · exact h
    · exact h

lemma length_dispatch_accept {cleaned CC DD c : Str}
    (h : (length_dispatch cleaned CC DD).1 = some c) :
    (cleaned.length = 12 ∧ startsWith CC cleaned = true ∧
        c = cleaned.take 4 ++ '9' :: cleaned.drop 4) ∨
    (cleaned.length = 10 ∧ c = CC ++ cleaned.take 2 ++ '9' :: cleaned.drop 2) ∨
    ((cleaned.length = 8 ∨ cleaned.length = 9) ∧ c = CC ++ DD ++ cleaned) ∨
    (cleaned.length = 11 ∧ c = CC ++ cleaned) ∨
    (cleaned.length = 13 ∧ startsWith CC cleaned = true ∧ c = cleaned) := by
  unfold length_dispatch at h
  dsimp only at h
  split at h
  · next h1 => exact Or.inl ⟨h1.1, h1.2, (Option.some.inj h).symm⟩
  · split at h
    · next h2 => exact Or.inr (Or.inl ⟨h2, (Option.some.inj h).symm⟩)
    · split at h
      · next h3 => exact Or.inr (Or.inr (Or.inl ⟨h3, (Option.some.inj h).symm⟩))
      · split at h
        · next h4 =>
            refine Or.inr (Or.inr (Or.inr (Or.inl ⟨h4, ?_⟩)))
            split at h <;> exact (Option.some.inj h).symm
        · split at h
          · next h5 => exact Or.inr (Or.inr (Or.inr (Or.inr
              ⟨h5.1, h5.2, (Option.some.inj h).symm⟩)))
          · split at h
            · simp at h
            · split at h <;> simp at h

lemma length_dispatch_nil (CC DD : Str) :
    length_dispatch [] CC DD = (none, some (Motivo.muitoCurto 0)) := by
  unfold length_dispatch
  simp

/-- C1 counterexample: the code has no final structural re-validation.
The 8-digit input 12345678 is accepted with a 12-digit canonical value,
and the 9-digit input 812345678 is accepted with a canonical whose 5th
digit is 8 rather than the marker 9; neither candidate is rejected. -/
theorem clean_accepts_twelve_digit_canonical :
    (clean_and_standardize_phone ("12345678".toList) ("5531".toList)).1
      = some ("553112345678".toList) ∧
    ("553112345678".toList).length ≠ 13 ∧
    (clean_and_standardize_phone ("812345678".toList) ("5531".toList)).1
      = some ("5531812345678".toList) ∧
    ("5531812345678".toList)[4]? ≠ some '9' := by decide

/-- C1 amended: an accepted canonical value has 13 digits except when the
input had exactly 8 digits, in which case it has 12; the marker digit 9
at position 5 is guaranteed only by the repair branches for 10- and
12-digit inputs, and no rejection of a malformed candidate exists. -/
theorem accepted_canonical_shape (number dcc c : Str)
    (h : (clean_and_standardize_phone number dcc).1 = some c) :
    (c.length = 13 ∨ ((stripNonDigits number).length = 8 ∧ c.length = 12)) ∧
    ((stripNonDigits number).length = 10 ∨ (stripNonDigits number).length = 12 →
      (c)[4]? = some '9') := by
  have hCC := length_CCof dcc
  have hDD := length_DDof dcc
  rcases length_dispatch_accept (clean_accept_dispatch h) with
      ⟨h12, _, rfl⟩ | ⟨h10, rfl⟩ | ⟨h89, rfl⟩ | ⟨h11, rfl⟩ | ⟨h13, _, rfl⟩
  · constructor
    · left
      simp only [List.length_append, List.length_take, List.length_cons, List.length_drop, h12]
      omega
    · intro _
      rw [List.getElem?_append_right (by simp [List.length_take, h12])]
      simp [List.length_take, h12]
  · constructor
    · left
      simp only [List.length_append, List.length_take, List.length_cons, List.length_drop,
        h10, hCC]
      omega
    · intro _
      have hlen4 : (CCof dcc ++ (stripNonDigits number).take 2).length = 4 := by
        simp [List.length_append, List.length_take, hCC, h10]
      rw [List.getElem?_append_right (by omega), hlen4]
      simp
  · constructor
    · rcases h89 with h8 | h9
      · right
        refine ⟨h8, ?_⟩
        simp only [List.length_append, hCC, hDD, h8]
      · left
        simp only [List.length_append, hCC, hDD, h9]
    · intro hmark
      rcases h89 with h8 | h9 <;> rcases hmark with hm | hm <;> omega
  · constructor
    · left
      simp only [List.length_append, hCC, h11]
    · intro hmark
      rcases hmark with hm | hm <;> omega
  · exact ⟨Or.inl h13, fun hmark => by rcases hmark with hm | hm <;> omega⟩

/-- C1 amended witness at the 10-digit input 3187654321 with the reference
configuration 5531. -/
theorem accepted_canonical_shape_witness :
    (("5531987654321".toList).length = 13 ∨
      ((stripNonDigits ("3187654321".toList)).length = 8 ∧
        ("5531987654321".toList).length = 12)) ∧
    ((stripNonDigits ("3187654321".toList)).length = 10 ∨
      (stripNonDigits ("3187654321".toList)).length = 12 →
      ("5531987654321".toList)[4]? = some '9') :=
  accepted_canonical_shape ("3187654321".toList) ("5531".toList)
    ("5531987654321".toList) (by decide)

/-- C6 counterexample: a whitespace-only input is not caught by the empty
check of the source (a blank string is truthy in Python); it falls
through to the length dispatch and is rejected as too short with 0
digits, not with the empty-input reason. -/
theorem blank_input_not_empty_reason :
    clean_and_standardize_phone (" ".toList) ("5531".toList)
      = (none, some (Motivo.muitoCurto 0)) ∧
    Motivo.muitoCurto 0 ≠ Motivo.vazio := by decide

/-- C6 amended: only the truly empty input is rejected with the
empty-input reason, as the first rule; a non-empty input made of spaces
passes the empty check and is rejected as too short with 0 digits. -/
theorem empty_input_rule (dcc : Str) :
    clean_and_standardize_phone [] dcc = (none, some Motivo.vazio) ∧
    (∀ number : Str, number ≠ [] → (∀ ch ∈ number, ch = ' ') →
      clean_and_standardize_phone number dcc = (none, some (Motivo.muitoCurto 0))) := by
  constructor
  · rfl
  · intro number hne hsp
    have hnomem : ¬ ('-' ∈ number) := fun hm => absurd (hsp '-' hm) (by decide)
    have hstrip : stripNonDigits number = [] := by
      refine List.filter_eq_nil_iff.mpr ?_
      intro a ha
      rw [hsp a ha]
      decide
    have hclean : clean_and_standardize_phone number dcc
        = length_dispatch (stripNonDigits number) (CCof dcc) (DDof dcc) := by
      unfold clean_and_standardize_phone
      rw [if_neg hne]
      dsimp only
      simp [hnomem]
    rw [hclean, hstrip, length_dispatch_nil]

/-- C6 amended witness at the single-space input. -/
theorem empty_input_rule_witness :
    clean_and_standardize_phone (" ".toList) ("5531".toList)
      = (none, some (Motivo.muitoCurto 0)) :=
  (empty_input_rule ("5531".toList)).2 (" ".toList) (by decide) (by decide)

/-- C10: the display formatter returns its input unchanged whenever the
input is empty or its length differs from 13. -/
theorem format_identity_off_thirteen (s : Str) (h : s = [] ∨ s.length ≠ 13) :
    format_phone_for_vcf s = s := by
  unfold format_phone_for_vcf
  rw [if_pos h]

/-- C10 witness at the 12-character canonical produced from an 8-digit
input. -/
theorem format_identity_off_thirteen_witness :
    format_phone_for_vcf ("553112345678".toList) = "553112345678".toList :=
  format_identity_off_thirteen ("553112345678".toList) (Or.inr (by decide))

lemma splitOn_ne_nil (sep : Char) : ∀ s : Str, splitOn sep s ≠ []
  | [] => by simp [splitOn]
  | c :: rest => by
      unfold splitOn
      dsimp only
      split <;> simp

lemma length_splitOn (sep : Char) : ∀ s : Str, (splitOn sep s).length = s.count sep + 1
  | [] => by simp [splitOn]
  | c :: rest => by
      have ih := length_splitOn sep rest
      have hne := splitOn_ne_nil sep rest
      unfold splitOn
      dsimp only
      split
      · next hcs =>
          subst hcs
          simp [List.count_cons, ih]
      · next hcs =>
          rcases List.exists_cons_of_ne_nil hne with ⟨a, r', hr⟩
          rw [hr] at ih
          simp [hr, List.count_cons, hcs] at ih ⊢
          omega

lemma clean_eq_dispatch_of_precheck {number : Str} (dcc : Str) (h1 : number ≠ [])
    (hpre : number.contains '-' = false ∨
      ((splitOn '-' number).length = 2 ∧
        (stripNonDigits ((splitOn '-' number).getD 1 [])).length = 4)) :
    clean_and_standardize_phone number dcc
      = length_dispatch (stripNonDigits number) (CCof dcc) (DDof dcc) := by
  unfold clean_and_standardize_phone
  rw [if_neg h1]
  dsimp only
  by_cases hc : '-' ∈ number
  · have hct : number.contains '-' = true := List.elem_iff.mpr hc
    rcases hpre with hcf | ⟨hp, hl⟩
    · rw [hcf] at hct
      cases hct
    · have hb : 1 < (splitOn '-' number).length := by omega
      rw [List.getD_eq_getElem _ _ hb] at hl
      simp [hc, hp, hl]
  · simp [hc]

/-- C5: with a non-empty input holding at least one hyphen, the length
dispatch is reached exactly when the hyphen occurs once and the text after
it reduces to 4 digits; a hyphen count other than one is rejected with the
hyphen-format message and a wrong digit count after the hyphen with the
second-part message (the two faces of the malformed-separator rejection),
regardless of the digit count of the whole input. -/
theorem hyphen_precheck_gate (number dcc : Str) (h1 : number ≠ [])
    (h2 : number.contains '-' = true) :
    (number.count '-' ≠ 1 →
      clean_and_standardize_phone number dcc = (none, some Motivo.hifenFormato)) ∧
    (number.count '-' = 1 →
      (stripNonDigits ((splitOn '-' number).getD 1 [])).length ≠ 4 →
      clean_and_standardize_phone number dcc
        = (none, some (Motivo.hifenParte2
            (stripNonDigits ((splitOn '-' number).getD 1 [])).length))) ∧
    (number.count '-' = 1 →
      (stripNonDigits ((splitOn '-' number).getD 1 [])).length = 4 →
      clean_and_standardize_phone number dcc
        = length_dispatch (stripNonDigits number) (CCof dcc) (DDof dcc)) := by
  have hmem : '-' ∈ number := List.elem_iff.mp h2
  have hparts := length_splitOn '-' number
  refine ⟨?_, ?_, ?_⟩
  · intro hcount
    have hne2 : (splitOn '-' number).length ≠ 2 := by omega
    unfold clean_and_standardize_phone
    rw [if_neg h1]
    dsimp only
    simp [hmem, hne2]
  · intro hcount hlen
    have heq2 : (splitOn '-' number).length = 2 := by omega
    have hb : 1 < (splitOn '-' number).length := by omega
    rw [List.getD_eq_getElem _ _ hb] at hlen ⊢
    unfold clean_and_standardize_phone
    rw [if_neg h1]
    dsimp only
    simp [hmem, heq2, hlen]
  · intro hcount hlen
    have heq2 : (splitOn '-' number).length = 2 := by omega
    exact clean_eq_dispatch_of_precheck dcc h1 (Or.inr ⟨heq2, hlen⟩)

/-- C5 witness at the input 123-45 from the specification scenarios: two
digits after the hyphen, rejected by the pre-check. -/
theorem hyphen_precheck_gate_witness :
    clean_and_standardize_phone ("123-45".toList) ("5531".toList)
      = (none, some (Motivo.hifenParte2
          (stripNonDigits ((splitOn '-' ("123-45".toList)).getD 1 [])).length)) :=
  (hyphen_precheck_gate ("123-45".toList) ("5531".toList) (by decide)
    (by decide)).2.1 (by decide) (by decide)

/-- C3 counterexample: a 12-digit input that does not start with the
configured country code is rejected with the generic invalid-length
message (the catch-all of the dispatch), the same message template used
for a 13-digit input without the country code; no dedicated
missing-country-code reason is produced. -/
theorem twelve_digit_without_cc_reason :
    clean_and_standardize_phone ("441198765432".toList) ("5531".toList)
      = (none, some (Motivo.tamanhoInvalido 12)) ∧
    clean_and_standardize_phone ("4411987654321".toList) ("5531".toList)
      = (none, some (Motivo.tamanhoInvalido 13)) ∧
    Motivo.tamanhoInvalido 12 ≠ Motivo.muitoLongoSemCC 12 := by decide

/-- C3 amended: a 12-digit input passing the hyphen pre-check is accepted
with the marker inserted after the fourth digit when its digits start with
the configured country code, and rejected with the generic invalid-length
reason (not a country-code-specific one) otherwise. -/
theorem twelve_digit_dispatch_rule (number dcc : Str) (h1 : number ≠ [])
    (hpre : number.contains '-' = false ∨
      ((splitOn '-' number).length = 2 ∧
        (stripNonDigits ((splitOn '-' number).getD 1 [])).length = 4))
    (hlen : (stripNonDigits number).length = 12) :
    (startsWith (CCof dcc) (stripNonDigits number) = true →
      clean_and_standardize_phone number dcc
        = (some ((stripNonDigits number).take 4 ++ '9' :: (stripNonDigits number).drop 4),
            none)) ∧
    (startsWith (CCof dcc) (stripNonDigits number) = false →
      clean_and_standardize_phone number dcc = (none, some (Motivo.tamanhoInvalido 12))) := by
  rw [clean_eq_dispatch_of_precheck dcc h1 hpre]
  constructor <;> intro hcc <;> unfold length_dispatch <;> dsimp only <;> simp [hlen, hcc]

/-- C3 amended witness at the 12-digit input 551198765432 from the
specification scenarios. -/
theorem twelve_digit_dispatch_rule_witness :
    clean_and_standardize_phone ("551198765432".toList) ("5531".toList)
      = (some ((stripNonDigits ("551198765432".toList)).take 4
          ++ '9' :: (stripNonDigits ("551198765432".toList)).drop 4), none) :=
  (twelve_digit_dispatch_rule ("551198765432".toList) ("5531".toList) (by decide)
    (Or.inl (by decide)) (by decide)).1 (by decide)

lemma startsWith_append_self (CC rest : Str) : startsWith CC (CC ++ rest) = true := by
  unfold startsWith
  rw [List.take_append_of_le_length (le_refl _), List.take_length]
  simp

lemma accepted_all_digits {number dcc c : Str}
    (hdcc : ∀ ch ∈ dcc, ch.isDigit = true)
    (h : (clean_and_standardize_phone number dcc).1 = some c) :
    ∀ ch ∈ c, ch.isDigit = true := by
  have hCC := CCof_digits hdcc
  have hDD := DDof_digits hdcc
  have hcl : ∀ ch ∈ stripNonDigits number, ch.isDigit = true :=
    fun ch hm => mem_stripNonDigits hm
  rcases length_dispatch_accept (clean_accept_dispatch h) with
      ⟨_, _, rfl⟩ | ⟨_, rfl⟩ | ⟨_, rfl⟩ | ⟨_, rfl⟩ | ⟨_, _, rfl⟩ <;> intro ch hm
  · rcases List.mem_append.mp hm with hm | hm
    · exact hcl ch (List.mem_of_mem_take hm)
    · rcases List.mem_cons.mp hm with rfl | hm
      · decide
      · exact hcl ch (List.mem_of_mem_drop hm)
  · rcases List.mem_append.mp hm with hm | hm
    · rcases List.mem_append.mp hm with hm | hm
      · exact hCC ch hm
      · exact hcl ch (List.mem_of_mem_take hm)
    · rcases List.mem_cons.mp hm with rfl | hm
      · decide
      · exact hcl ch (List.mem_of_mem_drop hm)
  · rcases List.mem_append.mp hm with hm | hm
    · rcases List.mem_append.mp hm with hm | hm
      · exact hCC ch hm
      · exact hDD ch hm
    · exact hcl ch hm
  · rcases List.mem_append.mp hm with hm | hm
    · exact hCC ch hm
    · exact hcl ch hm
  · exact hcl ch hm

lemma accepted_starts_cc {number dcc c : Str}
    (h : (clean_and_standardize_phone number dcc).1 = some c) :
    startsWith (CCof dcc) c = true := by
  have hCC := length_CCof dcc
  rcases length_dispatch_accept (clean_accept_dispatch h) with
      ⟨h12, hcc, rfl⟩ | ⟨h10, rfl⟩ | ⟨h89, rfl⟩ | ⟨h11, rfl⟩ | ⟨h13, hcc, rfl⟩
  · unfold startsWith at hcc ⊢
    rw [List.take_append_of_le_length (by rw [List.length_take, h12]; omega)]
    rw [List.take_take, min_eq_left (by omega)]
    exact hcc
  · rw [List.append_assoc]
    exact startsWith_append_self _ _
  · rw [List.append_assoc]
    exact startsWith_append_self _ _
  · exact startsWith_append_self _ _
  · exact hcc

lemma stripNonDigits_format {c : Str} (hc : ∀ ch ∈ c, ch.isDigit = true)
    (hlen : c.length = 13) : stripNonDigits (format_phone_for_vcf c) = c := by
  have hne : c ≠ [] := by
    intro e
    rw [e] at hlen
    simp at hlen
  unfold format_phone_for_vcf
  rw [if_neg (by push_neg; exact ⟨hne, by omega⟩)]
  dsimp only
  unfold stripNonDigits
  rw [List.filter_cons_of_neg (by decide)]
  simp only [List.filter_append]
  have fA : (c.take 2).filter Char.isDigit = c.take 2 :=
    List.filter_eq_self.mpr fun a ha => hc a (List.mem_of_mem_take ha)
  have fB : ((c.drop 2).take 2).filter Char.isDigit = (c.drop 2).take 2 :=
    List.filter_eq_self.mpr fun a ha =>
      hc a (List.mem_of_mem_drop (List.mem_of_mem_take ha))
  have fP1 : ((c.drop 4).take 5).filter Char.isDigit = (c.drop 4).take 5 :=
    List.filter_eq_self.mpr fun a ha =>
      hc a (List.mem_of_mem_drop (List.mem_of_mem_take ha))
  have fP2 : ((c.drop 9).take 4).filter Char.isDigit = (c.drop 9).take 4 :=
    List.filter_eq_self.mpr fun a ha =>
      hc a (List.mem_of_mem_drop (List.mem_of_mem_take ha))
  rw [fA, fB, fP1, fP2]
  rw [show List.filter Char.isDigit [' ', '('] = [] from by decide]
  rw [show List.filter Char.isDigit [')', ' '] = [] from by decide]
  rw [show List.filter Char.isDigit ['-'] = [] from by decide]
  have t1 : c.take 4 = c.take 2 ++ (c.drop 2).take 2 := by
    simpa using List.take_add c 2 2
  have t2 : c.take 9 = c.take 4 ++ (c.drop 4).take 5 := by
    simpa using List.take_add c 4 5
  have t3 : c.take 13 = c.take 9 ++ (c.drop 9).take 4 := by
    simpa using List.take_add c 9 4
  have t4 : c.take 13 = c := by
    conv_rhs => rw [← List.take_length (l := c)]
    rw [hlen]
  have hassemble : c.take 2 ++ ((c.drop 2).take 2 ++ ((c.drop 4).take 5
      ++ (c.drop 9).take 4)) = c := by
    rw [← List.append_assoc, ← t1, ← List.append_assoc, ← t2, ← t3, t4]
  simp only [List.append_nil, List.nil_append, List.append_assoc]
  simpa only [List.append_assoc] using hassemble

/-- C4 counterexample: an 8-digit raw input is accepted with a 12-digit
canonical value; the display formatter leaves it unchanged, and
re-normalizing its digits inserts a marker digit, producing a different
canonical value — the round trip is not stable. -/
theorem round_trip_fails_on_eight_digit_input :
    (clean_and_standardize_phone ("12345678".toList) ("5531".toList)).1
      = some ("553112345678".toList) ∧
    (clean_and_standardize_phone
        (stripNonDigits (format_phone_for_vcf ("553112345678".toList))) ("5531".toList)).1
      = some ("5531912345678".toList) ∧
    ("5531912345678".toList : Str) ≠ "553112345678".toList := by decide

/-- C4 amended: the round trip is stable for every accepted canonical
value of length 13 (equivalently, whenever the input had 9 to 13 digits):
normalizing the digits extracted from the display form reproduces the same
canonical value. The configured digit string must be made of digits, the
invariant of the configuration. -/
theorem round_trip_on_thirteen_digit_canonical (number dcc c : Str)
    (hdcc : ∀ ch ∈ dcc, ch.isDigit = true)
    (h : (clean_and_standardize_phone number dcc).1 = some c)
    (hlen : c.length = 13) :
    (clean_and_standardize_phone (stripNonDigits (format_phone_for_vcf c)) dcc).1
      = some c := by
  have hdig := accepted_all_digits hdcc h
  have hsw := accepted_starts_cc h
  rw [stripNonDigits_format hdig hlen]
  have hne : c ≠ [] := by
    intro e
    rw [e] at hlen
    simp at hlen
  have hnomem : ¬ ('-' ∈ c) := fun hm => absurd (hdig '-' hm) (by decide)
  have hclean : clean_and_standardize_phone c dcc
      = length_dispatch (stripNonDigits c) (CCof dcc) (DDof dcc) := by
    unfold clean_and_standardize_phone
    rw [if_neg hne]
    dsimp only
    simp [hnomem]
  rw [hclean, stripNonDigits_eq_self hdig]
  unfold length_dispatch
  dsimp only
  simp [hlen, hsw]

/-- C4 amended witness at the 11-digit input 31987654321 with the
reference configuration 5531. -/
theorem round_trip_on_thirteen_digit_canonical_witness :
    (clean_and_standardize_phone
        (stripNonDigits (format_phone_for_vcf ("5531987654321".toList))) ("5531".toList)).1
      = some ("5531987654321".toList) :=
  round_trip_on_thirteen_digit_canonical ("31987654321".toList) ("5531".toList)
    ("5531987654321".toList) (by decide) (by decide) (by decide)

lemma length_dispatch_cases (cleaned CC DD : Str) :
    (∃ c, length_dispatch cleaned CC DD = (some c, none)) ∨
    (∃ m, length_dispatch cleaned CC DD = (none, some m)) := by
  unfold length_dispatch
  dsimp only
  split
  · exact Or.inl ⟨_, rfl⟩
  · split
    · exact Or.inl ⟨_, rfl⟩
    · split
      · exact Or.inl ⟨_, rfl⟩
      · split
        · split
          · exact Or.inl ⟨_, rfl⟩
          · exact Or.inl ⟨_, rfl⟩
        · split
          · exact Or.inl ⟨_, rfl⟩
          · split
            · exact Or.inr ⟨_, rfl⟩
            · split
              · exact Or.inr ⟨_, rfl⟩
              · exact Or.inr ⟨_, rfl⟩

lemma clean_cases (number dcc : Str) :
    (∃ c, clean_and_standardize_phone number dcc = (some c, none)) ∨
    (∃ m, clean_and_standardize_phone number dcc = (none, some m)) := by
  unfold clean_and_standardize_phone
  dsimp only
  split
  · exact Or.inr ⟨_, rfl⟩
  · split
    · split
      · exact Or.inr ⟨_, rfl⟩
      · split
        · exact Or.inr ⟨_, rfl⟩
        · exact length_dispatch_cases _ _ _
    · exact length_dispatch_cases _ _ _

lemma vcf_rows_count (explain : Str → Option Motivo → Str) (dcc : Str) :
    ∀ (rows : List Row) (idx : Nat),
      (vcf_rows explain dcc idx rows).2.1.length
        + (vcf_rows explain dcc idx rows).2.2.length = rows.length
  | [], _ => by simp [vcf_rows]
  | row :: rest, idx => by
      have ih := vcf_rows_count explain dcc rest (idx + 1)
      unfold vcf_rows
      dsimp only
      split
      · split
        · dsimp only
          simp only [List.length_cons]
          omega
        · dsimp only
          simp only [List.length_cons]
          omega
      · dsimp only
        simp only [List.length_cons]
        omega

lemma vcf_rows_indices_perm (explain : Str → Option Motivo → Str) (dcc : Str) :
    ∀ (rows : List Row) (idx : Nat),
      (((vcf_rows explain dcc idx rows).2.1.map SuccessEntry.indice)
        ++ ((vcf_rows explain dcc idx rows).2.2.map FailEntry.indice)).Perm
        (List.range' (idx + 1) rows.length)
  | [], idx => by simp [vcf_rows]
  | row :: rest, idx => by
      have ih := vcf_rows_indices_perm explain dcc rest (idx + 1)
      unfold vcf_rows
      dsimp only
      split
      · split
        · dsimp only
          simp only [List.map_cons, List.cons_append, List.length_cons, List.range'_succ]
          exact ih.cons (idx + 1)
        · dsimp only
          simp only [List.map_cons, List.length_cons, List.range'_succ]
          exact List.Perm.trans List.perm_middle (ih.cons (idx + 1))
      · dsimp only
        simp only [List.map_cons, List.length_cons, List.range'_succ]
        exact List.Perm.trans List.perm_middle (ih.cons (idx + 1))

/-- C2: classification produces exactly one classified record per input
row — the success and failure lists together have exactly one entry per
row, and the stored one-based row indices of the two lists form a
permutation of the positions 1..n, so no row is dropped or duplicated. -/
theorem classify_partitions_rows (explain : Str → Option Motivo → Str)
    (rows : List Row) (dcc : Str) :
    (generate_vcf_content explain rows dcc).2.1.length
      + (generate_vcf_content explain rows dcc).2.2.length = rows.length ∧
    (((generate_vcf_content explain rows dcc).2.1.map SuccessEntry.indice)
      ++ ((generate_vcf_content explain rows dcc).2.2.map FailEntry.indice)).Perm
      (List.range' 1 rows.length) := by
  unfold generate_vcf_content
  dsimp only
  exact ⟨vcf_rows_count explain dcc rows 0,
    by simpa using vcf_rows_indices_perm explain dcc rows 0⟩

lemma vcf_rows_success_indices_lb (explain : Str → Option Motivo → Str) (dcc : Str) :
    ∀ (rows : List Row) (idx : Nat) (e : SuccessEntry),
      e ∈ (vcf_rows explain dcc idx rows).2.1 → idx + 1 ≤ e.indice
  | [], _, e => by simp [vcf_rows]
  | row :: rest, idx, e => by
      have ih := fun e => vcf_rows_success_indices_lb explain dcc rest (idx + 1) e
      unfold vcf_rows
      dsimp only
      split
      · split
        · intro hm
          rcases List.mem_cons.mp hm with rfl | hm
          · simp
          · exact le_trans (by omega) (ih e hm)
        · intro hm
          exact le_trans (by omega) (ih e hm)
      · intro hm
        exact le_trans (by omega) (ih e hm)

lemma vcf_rows_missing_name (explain : Str → Option Motivo → Str) (dcc : Str) :
    ∀ (rows : List Row) (idx i : Nat) (row : Row),
      rows[i]? = some row →
      pyStrip row.responsible = [] →
      (clean_and_standardize_phone (pyStrip row.phone) dcc).1.isSome = true →
      (∃ e ∈ (vcf_rows explain dcc idx rows).2.2,
        e.indice = idx + i + 1
          ∧ e.motivoDaFalha = MotivoFalha.nomeOuNumeroLimpoInvalido) ∧
      (∀ e ∈ (vcf_rows explain dcc idx rows).2.1, e.indice ≠ idx + i + 1)
  | [], idx, i, row => by
      intro h
      simp at h
  | r :: rest, idx, 0, row => by
      intro hrow hname hphone
      have hr : r = row := by simpa using hrow
      subst hr
      rcases clean_cases (pyStrip r.phone) dcc with ⟨c, hcl⟩ | ⟨m, hcl⟩
      · unfold vcf_rows
        dsimp only
        rw [hcl]
        dsimp only
        rw [if_neg (by simp [hname])]
        constructor
        · exact ⟨_, List.mem_cons_self _ _, by simp, rfl⟩
        · intro e hm'
          have := vcf_rows_success_indices_lb explain dcc rest (idx + 1) e hm'
          omega
      · rw [hcl] at hphone
        simp at hphone
  | r :: rest, idx, i + 1, row => by
      intro hrow hname hphone
      have hrow' : rest[i]? = some row := by simpa using hrow
      have ih := vcf_rows_missing_name explain dcc rest (idx + 1) i row hrow' hname hphone
      unfold vcf_rows
      dsimp only
      split
      · split
        · refine ⟨?_, ?_⟩
          · rcases ih.1 with ⟨e, he, h1, h2⟩
            exact ⟨e, he, by omega, h2⟩
          · intro e hm'
            rcases List.mem_cons.mp hm' with rfl | hm'
            · dsimp only
              omega
            · have := ih.2 e hm'
              omega
        · refine ⟨?_, ?_⟩
          · rcases ih.1 with ⟨e, he, h1, h2⟩
            exact ⟨e, List.mem_cons_of_mem _ he, by omega, h2⟩
          · intro e hm'
            have := ih.2 e hm'
            omega
      · refine ⟨?_, ?_⟩
        · rcases ih.1 with ⟨e, he, h1, h2⟩
          exact ⟨e, List.mem_cons_of_mem _ he, by omega, h2⟩
        · intro e hm'
          have := ih.2 e hm'
          omega

/-- C7: a row whose phone standardizes but whose responsible-name field is
blank lands in the failure list with the fallback motive — the message the
source stores exactly when the phone succeeded and the name is missing —
and no success entry carries its row index. -/
theorem blank_name_rejected_missing_name (explain : Str → Option Motivo → Str)
    (rows : List Row) (dcc : Str) (i : Nat) (row : Row)
    (hrow : rows[i]? = some row)
    (hname : pyStrip row.responsible = [])
    (hphone : (clean_and_standardize_phone (pyStrip row.phone) dcc).1.isSome = true) :
    (∃ e ∈ (generate_vcf_content explain rows dcc).2.2,
      e.indice = i + 1 ∧ e.motivoDaFalha = MotivoFalha.nomeOuNumeroLimpoInvalido) ∧
    (∀ e ∈ (generate_vcf_content explain rows dcc).2.1, e.indice ≠ i + 1) := by
  have h := vcf_rows_missing_name explain dcc rows 0 i row hrow hname hphone
  unfold generate_vcf_content
  dsimp only
  constructor
  · rcases h.1 with ⟨e, he, h1, h2⟩
    exact ⟨e, he, by omega, h2⟩
  · intro e hm
    have := h.2 e hm
    omega

/-- C7 witness at a one-row table with a blank responsible name and a
valid phone. -/
theorem blank_name_rejected_missing_name_witness :
    (∃ e ∈ (generate_vcf_content (fun _ _ => [])
        [⟨" ".toList, "Ana".toList, "T1".toList, "31987654321".toList⟩]
        ("5531".toList)).2.2,
      e.indice = 0 + 1 ∧ e.motivoDaFalha = MotivoFalha.nomeOuNumeroLimpoInvalido) ∧
    (∀ e ∈ (generate_vcf_content (fun _ _ => [])
        [⟨" ".toList, "Ana".toList, "T1".toList, "31987654321".toList⟩]
        ("5531".toList)).2.1, e.indice ≠ 0 + 1) :=
  blank_name_rejected_missing_name (fun _ _ => [])
    [⟨" ".toList, "Ana".toList, "T1".toList, "31987654321".toList⟩]
    ("5531".toList) 0
    ⟨" ".toList, "Ana".toList, "T1".toList, "31987654321".toList⟩
    (by decide) (by decide) (by decide)

/-- The vCard block a success entry gives rise to, rebuilt from the stored
fields exactly as the row loop builds it. -/
def vcard_block_of (e : SuccessEntry) : Str :=
  vcf_block (if e.aluno ≠ [] then e.responsavel ++ " - ".toList ++ e.aluno else e.responsavel)
    e.responsavel e.visualizacaoVCF

lemma vcf_rows_blocks (explain : Str → Option Motivo → Str) (dcc : Str) :
    ∀ (rows : List Row) (idx : Nat),
      (vcf_rows explain dcc idx rows).1
        = (vcf_rows explain dcc idx rows).2.1.map vcard_block_of
  | [], _ => by simp [vcf_rows]
  | row :: rest, idx => by
      have ih := vcf_rows_blocks explain dcc rest (idx + 1)
      unfold vcf_rows
      dsimp only
      split
      · split
        · simp [vcard_block_of, ih]
        · exact ih
      · exact ih

set_option maxRecDepth 4000 in
/-- C8 counterexample: two accepted rows produce two blocks joined by a
single newline — the text between the END line of the first card and the
BEGIN line of the second is one newline, not a blank line. -/
theorem vcf_join_not_blank_line :
    (generate_vcf_content (fun _ _ => [])
        [⟨"Ana".toList, [], [], "31987654321".toList⟩,
         ⟨"Bia".toList, [], [], "31912345678".toList⟩] ("5531".toList)).1
      = ("BEGIN:VCARD\nVERSION:3.0\nFN:Ana\nN:;Ana;;;\nTEL;TYPE=CELL:+55 (31) 98765-4321\nEND:VCARD\nBEGIN:VCARD\nVERSION:3.0\nFN:Bia\nN:;Bia;;;\nTEL;TYPE=CELL:+55 (31) 91234-5678\nEND:VCARD".toList) ∧
    (generate_vcf_content (fun _ _ => [])
        [⟨"Ana".toList, [], [], "31987654321".toList⟩,
         ⟨"Bia".toList, [], [], "31912345678".toList⟩] ("5531".toList)).1
      ≠ ("BEGIN:VCARD\nVERSION:3.0\nFN:Ana\nN:;Ana;;;\nTEL;TYPE=CELL:+55 (31) 98765-4321\nEND:VCARD\n\nBEGIN:VCARD\nVERSION:3.0\nFN:Bia\nN:;Bia;;;\nTEL;TYPE=CELL:+55 (31) 91234-5678\nEND:VCARD".toList) := by
  decide

/-- C8 amended: the output blob is exactly one literal vCard block per
accepted record — BEGIN:VCARD, VERSION:3.0, FN with the combined
responsible-student name, N with the responsible name, TEL;TYPE=CELL with
the display phone, END:VCARD — joined by a single newline, and an empty
accepted sequence yields an empty blob. -/
theorem vcf_encoding_shape (explain : Str → Option Motivo → Str) (rows : List Row)
    (dcc : Str) :
    (generate_vcf_content explain rows dcc).1
      = List.intercalate ['\n']
          ((generate_vcf_content explain rows dcc).2.1.map vcard_block_of) ∧
    ((generate_vcf_content explain rows dcc).2.1 = [] →
      (generate_vcf_content explain rows dcc).1 = []) := by
  unfold generate_vcf_content
  dsimp only
  rw [vcf_rows_blocks explain dcc rows 0]
  refine ⟨rfl, ?_⟩
  intro h
  rw [h]
  simp [List.intercalate]

/-- C8 amended witness: the empty table yields the empty blob. -/
theorem vcf_encoding_shape_witness :
    (generate_vcf_content (fun _ _ => []) [] ("5531".toList)).1 = [] :=
  (vcf_encoding_shape (fun _ _ => []) [] ("5531".toList)).2 (by decide)

lemma totalDelay_append (a b : List SendEvent) :
    totalDelay (a ++ b) = totalDelay a + totalDelay b := by
  induction a with
  | nil => simp [totalDelay]
  | cons e rest ih => cases e <;> simp [totalDelay, ih] <;> omega

/-- C9 counterexample: two consecutive records both skipped for lacking a
standardized phone produce a trace with no sleep event at all — no delay
separates their processings, so skipped records do not count toward the
spacing. -/
theorem skipped_records_incur_no_delay :
    send_loop (fun _ => true) ("5531".toList)
        [⟨"A".toList, [], [], "1".toList⟩, ⟨"B".toList, [], [], "2".toList⟩]
      = [SendEvent.skipRecord (some (Motivo.muitoCurto 1)),
         SendEvent.skipRecord (some (Motivo.muitoCurto 1))] ∧
    totalDelay (send_loop (fun _ => true) ("5531".toList)
        [⟨"A".toList, [], [], "1".toList⟩, ⟨"B".toList, [], [], "2".toList⟩]) = 0 := by
  decide

/-- C9 amended: the half-second delay is slept exactly once before each
gateway call, i.e. once per record with a standardized phone, whatever the
outcome of the call; records skipped for lacking one contribute no delay,
so the total slept time is 500 milliseconds times the number of records
with a standardized phone and the trace holds one sleep per gateway
call. -/
theorem delay_per_valid_dispatch (gateway : Str → Bool) (dcc : Str) (rows : List Row) :
    totalDelay (send_loop gateway dcc rows)
      = 500 * (rows.countP fun row =>
          ((clean_and_standardize_phone row.phone dcc).1).isSome) ∧
    (send_loop gateway dcc rows).countP isSleep
      = (send_loop gateway dcc rows).countP isApiCall := by
  induction rows with
  | nil => exact ⟨by simp [send_loop, totalDelay], by simp [send_loop]⟩
  | cons row rest ih =>
      have hsl : send_loop gateway dcc (row :: rest)
          = (match clean_and_standardize_phone row.phone dcc with
             | (none, reason) => [SendEvent.skipRecord reason]
             | (some cleaned, _) => [SendEvent.sleepDelay 500,
                 SendEvent.apiCall cleaned (gateway cleaned)])
            ++ send_loop gateway dcc rest := by
        simp [send_loop]
      rcases clean_cases row.phone dcc with ⟨c, hcl⟩ | ⟨m, hcl⟩
      · constructor
        · rw [hsl, hcl]
          dsimp only
          rw [totalDelay_append, List.countP_cons]
          simp only [totalDelay, hcl, Option.isSome_some, if_pos]
          rw [ih.1]
          ring
        · rw [hsl, hcl]
          dsimp only
          rw [List.countP_append, List.countP_append]
          simp [List.countP_cons, isSleep, isApiCall, ih.2]
      · constructor
        · rw [hsl, hcl]
          dsimp only
          rw [totalDelay_append, List.countP_cons]
          simp only [totalDelay, hcl, Option.isSome_none]
          rw [ih.1]
          simp
        · rw [hsl, hcl]
          dsimp only
          rw [List.countP_append, List.countP_append]
          simp [List.countP_cons, isSleep, isApiCall, ih.2]

end ExcelEscola
